import Mathlib

/-!
Verification development for the MCP protocol client of this repository
(`src/packages/mcp-client/src/index.ts` and its later iteration
`src/unnamed/part_007`, plus the worker endpoint `src/apps/worker/src/index.ts`).

The TypeScript is shallowly embedded: wire data that the code inspects is
modelled as `List Char` (the SSE byte stream after UTF-8 decoding) and as a
`Json` value type; `JSON.parse` is passed in as an explicit parameter
`pj : List Char → Option Json` (`none` = parse failure), since the client
treats it as an opaque primitive.  Network effects (fetch outcomes, timeouts)
are supplied by explicit oracle records, and exceptions are `Except`.
-/

namespace Mcp

/-- JSON values as produced by `JSON.parse`.  Numbers are modelled as `Int`
(the client never does numeric computation on response fields). -/
inductive Json where
  | null
  | bool (b : Bool)
  | num (n : Int)
  | str (s : String)
  | arr (xs : List Json)
  | obj (fields : List (String × Json))

/-- JS property read `v[k]`: defined field of an object, `none` (= `undefined`)
for every other value.  Objects from `JSON.parse` have unique keys. -/
def jsGet (v : Json) (k : String) : Option Json :=
  match v with
  | .obj fields => fields.lookup k
  | _ => none

/-- JS truthiness of a parsed JSON value (`undefined` is handled by the
`Option` at each call site). -/
def isTruthy (v : Json) : Bool :=
  match v with
  | .null => false
  | .bool b => b
  | .num n => n != 0
  | .str s => s ≠ ""
  | .arr _ => true
  | .obj _ => true

/-- Characters stripped by JS `trim`/`trimEnd` (the ASCII whitespace the
client can meet; exotic Unicode space classes are not modelled). -/
def isJsWs (c : Char) : Bool :=
  c == ' ' || c == '\t' || c == '\r' || c == '\n' || c == '\x0b' || c == '\x0c'

/-- JS `String.prototype.trimEnd` on decoded characters. -/
def trimEndL (s : List Char) : List Char :=
  (s.reverse.dropWhile isJsWs).reverse

/-- JS `String.prototype.trim`. -/
def jsTrimL (s : List Char) : List Char :=
  trimEndL (s.dropWhile isJsWs)

/-- Shorthand for embedding string literals as character lists. -/
def chars (s : String) : List Char := s.toList

/-! ## SSE event parser (`parseSseChunk`, `SseStream.nextEvent`)
From `src/packages/mcp-client/src/index.ts` lines 379–491; the copy in
`src/unnamed/part_007` lines 419–531 is identical. -/

/-- One decoded server-sent event (`interface SseEvent`). -/
structure SseEventL where
  event : List Char
  data : List Char
  deriving DecidableEq, Repr

/-- `chunk.split('\n')`: the accumulator is the line being built (head side)
plus the completed remainder lines. -/
def splitLinesAux : List Char → List Char × List (List Char)
  | [] => ([], [])
  | c :: rest =>
    let r := splitLinesAux rest
    if c = '\n' then ([], r.1 :: r.2) else (c :: r.1, r.2)

/-- JS `chunk.split('\n')` (always returns at least one line). -/
def splitLinesL (s : List Char) : List (List Char) :=
  (splitLinesAux s).1 :: (splitLinesAux s).2

/-- State of the `for (const line of lines)` loop in `parseSseChunk`:
current event name and accumulated `data:` payloads. -/
structure ChunkSt where
  event : List Char
  datas : List (List Char)

/-- One iteration of the line loop of `parseSseChunk`
(`src/packages/mcp-client/src/index.ts` lines 471–484). -/
def procLine (st : ChunkSt) (l : List Char) : ChunkSt :=
  if trimEndL l = [] then st
  else if (trimEndL l).head? = some ':' then st
  else if (chars "event:").isPrefixOf (trimEndL l) then
    { st with event := jsTrimL ((trimEndL l).drop 6) }
  else if (chars "data:").isPrefixOf (trimEndL l) then
    { st with datas := st.datas ++ [jsTrimL ((trimEndL l).drop 5)] }
  else st

/-- The line loop of `parseSseChunk` applied to a list of raw lines, plus the
final `if (!dataLines.length && !event) return null` check. -/
def parseSseLines (ls : List (List Char)) : Option SseEventL :=
  let st := ls.foldl procLine ⟨chars "message", []⟩
  if st.datas = [] ∧ st.event = [] then none
  else some ⟨st.event, (st.datas.intersperse (chars "\n")).flatten⟩

/-- `parseSseChunk` (`src/packages/mcp-client/src/index.ts` lines 466–491):
split the block into lines and run the line loop. -/
def parseSseChunkL (chunk : List Char) : Option SseEventL :=
  parseSseLines (splitLinesL chunk)

/-- `this.decoder.decode(value).replace(/\r\n/g, '\n')`: leftmost,
non-overlapping replacement of CR LF pairs inside one decoded chunk. -/
def normalizeCRLF : List Char → List Char
  | [] => []
  | [c] => [c]
  | c1 :: c2 :: rest =>
    if c1 = '\r' ∧ c2 = '\n' then '\n' :: normalizeCRLF rest
    else c1 :: normalizeCRLF (c2 :: rest)

/-- `buffer.indexOf('\n\n')` + the two `slice` calls: the part before the
first blank-line delimiter and the part after it, when a delimiter exists. -/
def splitFirstDelim : List Char → Option (List Char × List Char)
  | [] => none
  | c :: rest =>
    if c = '\n' ∧ rest.head? = some '\n' then some ([], rest.tail)
    else (splitFirstDelim rest).map (fun p => (c :: p.1, p.2))

/-- The delimiter-emptying inner loop of `SseStream.nextEvent`
(`src/packages/mcp-client/src/index.ts` lines 434–444), written with an
explicit fuel so that it is structural (each delimiter consumes at least two
buffer characters, so `s.length` fuel always suffices; see
`drainStepFuel_congr`): while the buffer contains a blank-line delimiter, cut
off the part before it and parse it (`null` parses are skipped, `continue`).
Returns the emitted events and the remaining delimiter-free buffer. -/
def drainStepFuel : Nat → List Char → List SseEventL × List Char
  | 0, s => ([], s)
  | fuel + 1, s =>
    match splitFirstDelim s with
    | some (c, rest) =>
      ((parseSseChunkL c).toList ++ (drainStepFuel fuel rest).1, (drainStepFuel fuel rest).2)
    | none => ([], s)

/-- The delimiter-emptying loop with enough fuel for its whole buffer. -/
def drainStep (s : List Char) : List SseEventL × List Char :=
  drainStepFuel s.length s

/-- `SseStream.nextEvent` run to exhaustion
(`src/packages/mcp-client/src/index.ts` lines 433–458): events are emitted
from the buffer whenever a blank-line delimiter is present; when none is, the
next decoded chunk is appended to the buffer after per-chunk `\r\n`
normalization (`this.decoder.decode(value).replace(/\r\n/g, '\n')`); at end
of stream a non-empty buffer is parsed as one final block.  The result is
the list of all events the stream can deliver. -/
def drainL (buffer : List Char) : List (List Char) → List SseEventL
  | [] =>
    let p := drainStep buffer
    p.1 ++ (if p.2 = [] then [] else (parseSseChunkL p.2).toList)
  | ch :: cs =>
    let p := drainStep buffer
    p.1 ++ drainL (p.2 ++ normalizeCRLF ch) cs

/-- Batch view of the same framing, with the same explicit fuel as
`drainStepFuel`: the blocks of a whole buffered string, cut at each
blank-line delimiter, with a trailing non-empty remainder kept as one final
block. -/
def sseBlocksFuel : Nat → List Char → List (List Char)
  | 0, s => if s = [] then [] else [s]
  | fuel + 1, s =>
    match splitFirstDelim s with
    | some (c, rest) => c :: sseBlocksFuel fuel rest
    | none => if s = [] then [] else [s]

/-- The batch block-splitting with enough fuel for its whole string. -/
def sseBlocks (s : List Char) : List (List Char) :=
  sseBlocksFuel s.length s

/-- Batch view of the event stream: parse every block of a fully buffered
string, skipping `null` parses. -/
def sseEventsOf (s : List Char) : List SseEventL :=
  (sseBlocks s).filterMap parseSseChunkL

/-! ## Spec-shaped description of `parseSseChunk` (for the refinement claim
about the SSE event parser).  These definitions follow the words of the
specification (§4.4): comment and blank lines are ignored, `event:` sets the
event name, `data:` payloads accumulate in order. -/

/-- The event name contributed by one line, per the spec's words: ignored if
blank or a `:`-comment; an `event:` line contributes the (trimmed) name. -/
def specEventOf (l : List Char) : Option (List Char) :=
  if trimEndL l = [] ∨ (trimEndL l).head? = some ':' then none
  else if (chars "event:").isPrefixOf (trimEndL l) then
    some (jsTrimL ((trimEndL l).drop 6))
  else none

/-- The data payload contributed by one line, per the spec's words: ignored
if blank, a `:`-comment, or an `event:` line; a `data:` line contributes its
(trimmed) payload. -/
def specDataOf (l : List Char) : Option (List Char) :=
  if trimEndL l = [] ∨ (trimEndL l).head? = some ':' then none
  else if (chars "event:").isPrefixOf (trimEndL l) then none
  else if (chars "data:").isPrefixOf (trimEndL l) then
    some (jsTrimL ((trimEndL l).drop 5))
  else none

/-- Spec-shaped description of one event block: the event name is the last
`event:` line's name (default `"message"` when absent), the data is the
`data:` payloads joined with `"\n"` in order; the block is suppressed when it
has no data and an explicitly emptied event name (mirroring the code's final
`null` check). -/
def sseChunkSpec (chunk : List Char) : Option SseEventL :=
  let ls := splitLinesL chunk
  let e := ((ls.filterMap specEventOf).getLast?).getD (chars "message")
  let ds := ls.filterMap specDataOf
  if ds = [] ∧ e = [] then none
  else some ⟨e, (ds.intersperse (chars "\n")).flatten⟩

/-! ## HTTP transport (`src/unnamed/part_007`) -/

/-- Errors thrown inside the HTTP transport internals: `HttpStatusError`
(status plus raw body text, part_007 lines 46–51) or `McpClientError`
(message plus machine-readable code, lines 39–44). -/
inductive XErr where
  | httpStatus (status : Nat) (body : List Char)
  | client (message : String) (code : String)
  deriving DecidableEq

/-- An error as seen by callers of the client: a `McpClientError`
(message, code), or `raw` for a non-`McpClientError` exception escaping
(only the `index.ts` SSE adapter can leak one, from an un-wrapped `fetch`
rejection). -/
inductive CErr where
  | client (message : String) (code : String)
  | raw (message : String)
  deriving DecidableEq

/-- `Response.ok`: status in the inclusive range 200–299 (Fetch standard). -/
def statusOk (status : Nat) : Bool :=
  200 ≤ status && status ≤ 299

/-- The body side of a `fetch` response: `response.text()` threw, or
delivered this raw text. -/
inductive BodyOutcome where
  | readError
  | text (raw : List Char)

/-- Environment of one `fetch` + body read, as an oracle value: the deadline
wrapper fired first, the fetch rejected, or a response arrived. -/
inductive FetchOutcome where
  | timeout
  | netError (msg : String)
  | resp (status : Nat) (body : BodyOutcome)

/-- `postJsonRpc` (part_007 lines 251–303).  A timeout throws
`McpClientError('http_timeout', 'timeout')` (the string `'http_timeout'` is
the MESSAGE passed to `withTimeout`; the code is always `'timeout'`); a fetch
rejection is wrapped as code `'network_error'`; a non-2xx status throws
`HttpStatusError` carrying the raw body (empty if the body read failed); an
empty trimmed body is synthesized as `{jsonrpc:'2.0', id: payload.id}` with
`result: undefined` (modelled by omission); otherwise the trimmed body is
`JSON.parse`d, any parse failure being `invalid_json`.  No field of a
successfully parsed body is inspected. -/
def postJsonRpcM (pj : List Char → Option Json) (pid : String) (o : FetchOutcome) :
    Except XErr Json :=
  match o with
  | .timeout => .error (.client "http_timeout" "timeout")
  | .netError m => .error (.client m "network_error")
  | .resp status body =>
    if statusOk status = false then
      .error (.httpStatus status (match body with | .readError => [] | .text raw => raw))
    else
      match body with
      | .readError => .error (.client "Failed to read response body" "invalid_response")
      | .text raw =>
        if jsTrimL raw = [] then
          .ok (Json.obj [("jsonrpc", .str "2.0"), ("id", .str pid)])
        else
          match pj (jsTrimL raw) with
          | some j => .ok j
          | none => .error (.client "Failed to parse JSON-RPC response" "invalid_json")

/-- `getJsonRpc`'s response handling (part_007 lines 318–362) is literally
the same outcome classification as `postJsonRpc` (the status-error message
differs only in the printed URL, which the model does not carry);
the request construction is modelled separately by `getRequestOf`. -/
def getJsonRpcM (pj : List Char → Option Json) (pid : String) (o : FetchOutcome) :
    Except XErr Json :=
  postJsonRpcM pj pid o

/-- JS object update `obj[k] = v` on an insertion-ordered string map. -/
def jsSet (m : List (String × String)) (k v : String) : List (String × String) :=
  if m.any (fun kv => kv.1 == k) then m.map (fun kv => if kv.1 == k then (k, v) else kv)
  else m ++ [(k, v)]

/-- JS object spread `{ ...base, ...extra }`. -/
def jsSpread (base extra : List (String × String)) : List (String × String) :=
  extra.foldl (fun acc kv => jsSet acc kv.1 kv.2) base

/-- JS `delete obj[k]`. -/
def jsDelete (m : List (String × String)) (k : String) : List (String × String) :=
  m.filter (fun kv => kv.1 ≠ k)

/-- The headers built at the top of `sendViaHttp` (part_007 lines 143–147):
`{ Accept: 'application/json', 'Content-Type': 'application/json',
...config.headers }`. -/
def sendHeaders (extra : List (String × String)) : List (String × String) :=
  jsSpread [("Accept", "application/json"), ("Content-Type", "application/json")] extra

/-- A JSON-RPC request payload (`createRpcPayload`, part_007 lines 344–351):
the `jsonrpc` field is the constant `"2.0"`. -/
structure RpcPayloadM where
  id : String
  method : String
  params : Json

/-- The GET fallback request built by `getJsonRpc` (part_007 lines 305–327):
the request URL gains a `jsonrpc` query parameter holding
`JSON.stringify(payload)` (the model records the payload whose serialization
is sent), and the headers are `{ Accept: 'application/json', ...headers }`
with both spellings `Content-Type` and `content-type` deleted. -/
structure GetRequest where
  url : String
  queryJsonrpcPayload : RpcPayloadM
  headers : List (String × String)

/-- Request construction of `getJsonRpc` (part_007 lines 311–316). -/
def getRequestOf (url : String) (payload : RpcPayloadM)
    (headers : List (String × String)) : GetRequest :=
  { url := url
  , queryJsonrpcPayload := payload
  , headers := jsDelete (jsDelete (jsSpread [("Accept", "application/json")] headers)
      "Content-Type") "content-type" }

/-- `pushWarning` (part_007 lines 151–157): deduplicated accumulation when a
warnings array was supplied (`warnOn`); the `console.warn` side effect is not
modelled. -/
def pushW (warnOn : Bool) (ws : List String) (m : String) : List String :=
  if warnOn ∧ ¬ (m ∈ ws) then ws ++ [m] else ws

/-- `attemptInitialize` (part_007 lines 159–188): try an `initialize` call at
`targetUrl`, convert any failure into a warning (statuses 404/405/501 use the
`responded with status` wording, other statuses `returned status`, client
errors `failed: <message>`), and never abort.  Returns whether the handshake
succeeded plus the updated warnings.  The fresh random id of the `initialize`
payload is dropped by the code, so the model uses a fixed placeholder. -/
def attemptInitializeM (pj : List Char → Option Json) (targetUrl label : String)
    (warnOn : Bool) (o : FetchOutcome) (ws : List String) : Bool × List String :=
  if targetUrl = "" then (false, ws)
  else
    match postJsonRpcM pj "initialize-id" o with
    | .ok _ => (true, ws)
    | .error (.httpStatus s _) =>
      if s = 404 ∨ s = 405 ∨ s = 501 then
        (false, pushW warnOn ws (label ++ " endpoint " ++ targetUrl ++
          " responded with status " ++ toString s ++ "; continuing without handshake."))
      else
        (false, pushW warnOn ws (label ++ " endpoint " ++ targetUrl ++
          " returned status " ++ toString s ++ "; continuing without handshake."))
    | .error (.client m _) =>
      (false, pushW warnOn ws (label ++ " endpoint " ++ targetUrl ++
        " failed: " ++ m ++ "; continuing without handshake."))

/-- `isRetryableError` (part_007 line 557): compares the error CODE against
the strings `'http_timeout'` and `'network_error'`. -/
def isRetryableErrorM (code : String) : Bool :=
  code == "http_timeout" || code == "network_error"

/-- Result of one `sendViaHttp` call: the outcome, the warnings, and how many
POST and GET requests were issued. -/
structure HttpResult where
  result : Except CErr Json
  warnings : List String
  postCount : Nat
  getCount : Nat

/-- The fallback stage of one loop iteration of `sendViaHttp` (part_007
lines 212–226): on a 405/403 status error — after pushing the fallback
warning — or on a 404 (which first pushes its own warning), run the GET
fallback once, its failure replacing the error (`error = getError`); every
other error passes through.  Returns the surviving outcome, the warnings,
and the updated GET index. -/
def fallbackStage (pj : List Char → Option Json) (url pid : String)
    (warnOn : Bool) (gets : Nat → FetchOutcome) (e : XErr) (gIdx : Nat)
    (ws : List String) : Except XErr Json × List String × Nat :=
  match e with
  | .httpStatus s _ =>
    if s = 405 ∨ s = 403 then
      (getJsonRpcM pj pid (gets gIdx),
       pushW warnOn ws ("POST " ++ url ++
         " was rejected; retrying with GET jsonrpc query parameter."),
       gIdx + 1)
    else if s = 404 then
      (getJsonRpcM pj pid (gets gIdx),
       pushW warnOn
         (pushW warnOn ws ("POST " ++ url ++ " returned 404; continuing without handshake."))
         ("POST " ++ url ++ " was rejected; retrying with GET jsonrpc query parameter."),
       gIdx + 1)
    else ((.error e : Except XErr Json), ws, gIdx)
  | .client _ _ => ((.error e : Except XErr Json), ws, gIdx)

/-- The primary-exchange loop of `sendViaHttp` (part_007 lines 199–249).
Each iteration executes the POST; on `HttpStatusError` 405/403 (or 404, which
first records its own warning) it runs the GET fallback once, a failing
fallback replacing the error (`error = getError`); the surviving error is
classified: status errors become `http_error` `McpClientError`s (with the
`tools/list`-specific wording when applicable), and a retryable client error
re-enters the loop while `attempt + 1 < maxAttempts` (`maxAttempts = 2`).
`retriesLeft` is `maxAttempts - 1 - attempt`, so the guard
`attempt + 1 < maxAttempts` is `retriesLeft > 0`; `pIdx`/`gIdx` index the
oracle's POST/GET outcomes and count the requests issued. -/
def httpLoopM (pj : List Char → Option Json) (url method pid : String)
    (warnOn : Bool) (posts gets : Nat → FetchOutcome) :
    Nat → Nat → Nat → List String → HttpResult
  | retriesLeft, pIdx, gIdx, ws =>
    match postJsonRpcM pj pid (posts pIdx) with
    | .ok j => ⟨.ok j, ws, pIdx + 1, gIdx⟩
    | .error e =>
      match fallbackStage pj url pid warnOn gets e gIdx ws with
      | (.ok j, ws2, g2) => ⟨.ok j, ws2, pIdx + 1, g2⟩
      | (.error e2, ws2, g2) =>
        match e2 with
        | .httpStatus s _ =>
          if method = "tools/list" then
            ⟨.error (.client ("Couldn't list tools at " ++ url ++ " (status " ++ toString s ++
              "). This server may not implement JSON-RPC at this path.") "http_error"),
             ws2, pIdx + 1, g2⟩
          else
            ⟨.error (.client ("Request failed at " ++ url ++ " (status " ++ toString s ++ ").")
              "http_error"), ws2, pIdx + 1, g2⟩
        | .client m c =>
          match retriesLeft with
          | r + 1 =>
            if isRetryableErrorM c then
              httpLoopM pj url method pid warnOn posts gets r (pIdx + 1) g2 ws2
            else ⟨.error (.client m c), ws2, pIdx + 1, g2⟩
          | 0 => ⟨.error (.client m c), ws2, pIdx + 1, g2⟩

/-- Oracle for one `sendViaHttp` call: outcomes of the `initialize` attempts
and of each POST / GET attempt of the main loop. -/
structure HttpWorld where
  hsInit : FetchOutcome
  mainInit : FetchOutcome
  posts : Nat → FetchOutcome
  gets : Nat → FetchOutcome

/-- `sendViaHttp` (part_007 lines 137–250): the optional handshake phase
(explicit handshake URL first when provided and truthy — the absent
`handshakeUrl` is modelled as `""`, JS-falsy — falling back to the main URL),
then the primary-exchange loop starting at `attempt = 0` (one retry left). -/
def sendViaHttpM (pj : List Char → Option Json) (url hsUrl method pid : String)
    (warnOn : Bool) (w : HttpWorld) : HttpResult :=
  let ws1 :=
    if hsUrl ≠ "" then
      let r := attemptInitializeM pj hsUrl "Handshake" warnOn w.hsInit []
      if r.1 then r.2
      else (attemptInitializeM pj url "Initialize" warnOn w.mainInit r.2).2
    else (attemptInitializeM pj url "Initialize" warnOn w.mainInit []).2
  httpLoopM pj url method pid warnOn w.posts w.gets 1 0 0 ws1

/-! ## SSE transport (`src/packages/mcp-client/src/index.ts` lines 266–342) -/

/-- Outcome of the handshake `GET` that opens the event stream. -/
inductive SseConnect where
  | timeout
  | netError (msg : String)
  | resp (status : Nat) (hasBody : Bool)

/-- Outcome of the JSON-RPC `POST` issued on the negotiated endpoint (its
body is never read by `sendViaSse`). -/
inductive SsePost where
  | timeout
  | netError (msg : String)
  | resp (status : Nat)

/-- Oracle for one `sendViaSse` call: the connection outcome, the stream
bytes delivered before the deadline, whether `buildPostUrl` succeeds, and
the POST outcome. -/
structure SseWorld where
  connect : SseConnect
  chunks : List (List Char)
  urlOk : Bool
  post : SsePost

/-- How many times the stream reader was cancelled (`stream.close()`) and
the connection aborted (`controller.abort()`). -/
structure Cleanup where
  readerCancels : Nat
  aborts : Nat
  deriving DecidableEq, Repr

/-- `waitFor`'s scan (`index.ts` 407–431): events are read in order until
the predicate matches; the match and the remaining stream are returned
(`none` = the deadline expired or the stream ended first). -/
def findConsume {α : Type} (p : α → Bool) : List α → Option (α × List α)
  | [] => none
  | x :: xs => if p x then some (x, xs) else findConsume p xs

/-- The predicate of `SseStream.waitForMessage` (`index.ts` 392–401): the
event is named `message` and its JSON-decoded data is a value whose `id`
property is (`===`) the outstanding request id (a string). -/
def msgMatch (pj : List Char → Option Json) (pid : String) (e : SseEventL) : Bool :=
  e.event == chars "message" &&
    (match pj e.data with
     | some j => (match jsGet j "id" with | some (.str s) => s == pid | _ => false)
     | none => false)

/-- Validation of the matched `message` payload (`index.ts` 328–337): a
`safelyParseJson` failure — or a falsy parse result (`if (!parsed)`) — is
`invalid_json`; a truthy `error` field is `mcp_error`, the message being
`error.message` when a string and the fallback `'MCP error response'` when
nullish (the implicit JS stringification of other `message` types is not
modelled); otherwise the parsed response is returned as-is. -/
def sseValidate (pj : List Char → Option Json) (data : List Char) : Except CErr Json :=
  match pj data with
  | none => .error (.client "Failed to parse response payload" "invalid_json")
  | some j =>
    if isTruthy j = false then
      .error (.client "Failed to parse response payload" "invalid_json")
    else
      match jsGet j "error" with
      | some e =>
        if isTruthy e then
          .error (.client
            (match jsGet e "message" with
             | some (.str m) => m
             | _ => "MCP error response") "mcp_error")
        else .ok j
      | none => .ok j

/-- `sendViaSse` (`index.ts` lines 266–342).  The deadline expiring during
`waitForEvent`/`waitForMessage` coincides, in the model, with exhausting the
events available before it (`waitFor` returns `null` for both stream end and
timeout).  The `Mcp-Session-Id` header extraction (lines 298–307) never
throws and is not inspected by any later step, so it is not modelled.
Returns the outcome plus the cleanup counts: the `finally` block (lines
338–341) cancels the reader and aborts the connection on every exit of the
`try` body; a handshake response failure (lines 284–287) aborts before a
reader exists; a rejection or timeout of the handshake `fetch` itself
propagates before any cleanup. -/
def sendViaSseM (pj : List Char → Option Json) (pid : String) (w : SseWorld) :
    Except CErr Json × Cleanup :=
  match w.connect with
  | .timeout => (.error (.client "Handshake timed out" "timeout"), ⟨0, 0⟩)
  | .netError m => (.error (.raw m), ⟨0, 0⟩)
  | .resp status hasBody =>
    if statusOk status = false ∨ hasBody = false then
      (.error (.client ("Handshake failed with status " ++ toString status) "handshake_failed"),
       ⟨0, 1⟩)
    else
      let events := drainL [] w.chunks
      let body : Except CErr Json :=
        match findConsume (fun e => e.event == chars "endpoint") events with
        | none => .error (.client "Handshake did not return a post endpoint" "handshake_failed")
        | some (epe, rest) =>
          if epe.data = [] then
            .error (.client "Handshake did not return a post endpoint" "handshake_failed")
          else if w.urlOk = false then
            .error (.client "Invalid post endpoint returned by server" "invalid_endpoint")
          else
            match w.post with
            | .timeout => .error (.client "RPC request timed out" "timeout")
            | .netError m => .error (.raw m)
            | .resp s =>
              if statusOk s = false ∧ s ≠ 202 then
                .error (.client ("RPC request failed with status " ++ toString s) "rpc_failed")
              else
                match findConsume (msgMatch pj pid) rest with
                | none => .error (.client "No response message received" "no_response")
                | some (me, _) => sseValidate pj me.data
      (body, ⟨1, 1⟩)

/-! ## Public operations (`listTools`) and the worker endpoint -/

/-- One normalized tool record (`ToolDescriptor`). -/
structure ToolDescr where
  name : String
  description : Option String
  deriving DecidableEq, Repr

/-- `listTools`' result shape (`interface ListToolsResponse`): a tools list
plus optional warnings — there is no failure variant. -/
structure ListToolsRes where
  tools : List ToolDescr
  warnings : Option (List String)

/-- `Array.isArray(response.result?.tools) ? response.result.tools : []`
(`index.ts` line 59). -/
def toolsArray (resp : Json) : List Json :=
  match jsGet resp "result" with
  | some r =>
    match jsGet r "tools" with
    | some (.arr xs) => xs
    | _ => []
  | none => []

/-- Normalization of one server-supplied tool record (`index.ts` 62–65):
a non-string `name` becomes `'unknown'`, a non-string `description` is
dropped. -/
def normalizeTool (t : Json) : ToolDescr :=
  { name := match jsGet t "name" with | some (.str s) => s | _ => "unknown"
  , description := match jsGet t "description" with | some (.str s) => some s | _ => none }

/-- The tail of `listTools` (`index.ts` 55–68 = part_007 55–68) applied to
the outcome of `sendRpc` and the warnings it accumulated: a thrown transport
error propagates unchanged (`listTools` has no catch), and on success the
records are normalized and the warnings attached
(`warnings.length ? warnings : undefined`). -/
def listToolsFrom (outcome : Except CErr Json) (ws : List String) :
    Except CErr ListToolsRes :=
  match outcome with
  | .error e => .error e
  | .ok resp => .ok ⟨(toolsArray resp).map normalizeTool,
      if ws = [] then none else some ws⟩

/-- Oracle for one `sendRpc` call: which transport the config selects and
that adapter's environment. -/
inductive RpcWorld where
  | http (w : HttpWorld)
  | sse (w : SseWorld)

/-- `sendRpc` (dispatch, `index.ts` lines 92–123): the HTTP adapter receives
the caller's warnings array (`options?.warnings`); the SSE adapter never
does, so SSE calls contribute no warnings.  The HTTP adapter is the
converged `part_007` version (with fallback and retry). -/
def sendRpcM (pj : List Char → Option Json) (url hsUrl method pid : String)
    (warnOn : Bool) : RpcWorld → Except CErr Json × List String
  | .http w =>
    let r := sendViaHttpM pj url hsUrl method pid warnOn w
    (r.result, r.warnings)
  | .sse w => ((sendViaSseM pj pid w).1, [])

/-- `listTools` (`index.ts` 55–68): builds the `tools/list` payload, passes
its local warnings array to `sendRpc`, and post-processes the response. -/
def listToolsM (pj : List Char → Option Json) (url hsUrl pid : String)
    (w : RpcWorld) : Except CErr ListToolsRes :=
  let r := sendRpcM pj url hsUrl "tools/list" pid true w
  listToolsFrom r.1 r.2

/-- The worker's `/api/mcp/list` handler response
(`src/apps/worker/src/index.ts` lines 108–117): HTTP status plus either the
tools payload or the `errorPayload('mcp_unreachable', …)` body. -/
inductive WorkerListResp where
  | ok (status : Nat) (body : ListToolsRes)
  | err (status : Nat) (code : String) (message : String)

/-- `asErrorMessage` (worker lines 552–564) restricted to the errors the
client can throw: both `McpClientError` and a raw error are `Error`
instances, so `error.message || fallback` applies. -/
def asErrorMessageM (e : CErr) (fallback : String) : String :=
  match e with
  | .client m _ => if m = "" then fallback else m
  | .raw m => if m = "" then fallback else m

/-- The `try`/`catch` around `listMcpTools` in the worker's `/api/mcp/list`
handler (lines 108–117): success responds 200 with the tools, any throw
responds 502 with `errorPayload('mcp_unreachable', asErrorMessage(...))`. -/
def workerListM (r : Except CErr ListToolsRes) : WorkerListResp :=
  match r with
  | .ok t => .ok 200 t
  | .error e => .err 502 "mcp_unreachable" (asErrorMessageM e "Failed to list tools")

/-! ## Concrete fixtures used by counterexamples and witnesses -/

/-- A `JSON.parse` oracle for worlds whose bodies are never parsed. -/
def pjNone : List Char → Option Json := fun _ => none

/-- An HTTP world whose handshake succeeds with an empty body and whose every
POST is answered `500` with an empty body. -/
def w500 : RpcWorld :=
  .http ⟨.resp 200 (.text []), .resp 200 (.text []),
    fun _ => .resp 500 (.text []), fun _ => .resp 200 (.text [])⟩

/-- The exact text and parse of a version-1.0 JSON-RPC response. -/
def rawV1 : List Char := chars "\x7b\"jsonrpc\":\"1.0\",\"id\":\"req-1\",\"result\":\x7b\x7d\x7d"

/-- The parsed value of `rawV1`. -/
def jsonV1 : Json :=
  .obj [("jsonrpc", .str "1.0"), ("id", .str "req-1"), ("result", .obj [])]

/-- A `JSON.parse` oracle that parses exactly `rawV1`. -/
def pjV1 : List Char → Option Json :=
  fun s => if s = rawV1 then some jsonV1 else none

/-- The exact text of a JSON-RPC response with a populated `error` field. -/
def rawErr : List Char :=
  chars "\x7b\"jsonrpc\":\"2.0\",\"id\":\"req-1\",\"error\":\x7b\"code\":-32000,\"message\":\"boom\"\x7d\x7d"

/-- The parsed value of `rawErr`. -/
def jsonErr : Json :=
  .obj [("jsonrpc", .str "2.0"), ("id", .str "req-1"),
    ("error", .obj [("code", .num (-32000)), ("message", .str "boom")])]

/-- A `JSON.parse` oracle that parses exactly `rawErr`. -/
def pjErr : List Char → Option Json :=
  fun s => if s = rawErr then some jsonErr else none

/-- The exact text of a response whose `id` does not match request `req-1`. -/
def rawOther : List Char := chars "\x7b\"jsonrpc\":\"2.0\",\"id\":\"other\",\"result\":5\x7d"

/-- The parsed value of `rawOther`. -/
def jsonOther : Json :=
  .obj [("jsonrpc", .str "2.0"), ("id", .str "other"), ("result", .num 5)]

/-- A `JSON.parse` oracle that parses exactly `rawOther`. -/
def pjOther : List Char → Option Json :=
  fun s => if s = rawOther then some jsonOther else none

theorem splitFirstDelim_length {s c r} (h : splitFirstDelim s = some (c, r)) :
    c.length + 2 + r.length = s.length := by
  induction s generalizing c r with
  | nil => simp [splitFirstDelim] at h
  | cons x rest ih =>
    rw [splitFirstDelim] at h
    split at h
    · rename_i hx
      simp only [Option.some.injEq, Prod.mk.injEq] at h
      obtain ⟨hc, hr⟩ := h
      subst hc; subst hr
      cases rest with
      | nil => simp at hx
      | cons y t => simp; omega
    · cases hsp : splitFirstDelim rest with
      | none => simp [hsp] at h
      | some p =>
        simp only [hsp, Option.map_some'] at h
        cases h
        have := ih hsp
        simp only [List.length_cons]
        omega

theorem drainStepFuel_congr :
    ∀ {u : Nat} {v : Nat} {s : List Char}, s.length ≤ u → s.length ≤ v →
      drainStepFuel u s = drainStepFuel v s := by
  intro u
  induction u with
  | zero =>
    intro v s h1 h2
    have hs : s = [] := List.length_eq_zero.mp (Nat.le_zero.mp h1)
    subst hs
    cases v with
    | zero => rfl
    | succ b => simp [drainStepFuel, splitFirstDelim]
  | succ a ih =>
    intro v s h1 h2
    cases v with
    | zero =>
      have hs : s = [] := List.length_eq_zero.mp (Nat.le_zero.mp h2)
      subst hs
      simp [drainStepFuel, splitFirstDelim]
    | succ b =>
      rw [drainStepFuel, drainStepFuel]
      cases hsp : splitFirstDelim s with
      | none => rfl
      | some p =>
        obtain ⟨c, rest⟩ := p
        have hlen := splitFirstDelim_length hsp
        have := ih (s := rest) (v := b) (by omega) (by omega)
        simp [this]

theorem drainStep_delim {s c rest} (h : splitFirstDelim s = some (c, rest)) :
    drainStep s = ((parseSseChunkL c).toList ++ (drainStep rest).1, (drainStep rest).2) := by
  have hlen := splitFirstDelim_length h
  obtain ⟨m, hm⟩ : ∃ m, s.length = m + 1 := ⟨s.length - 1, by omega⟩
  rw [drainStep, hm, drainStepFuel, h]
  rw [drainStep, drainStepFuel_congr (v := m) (le_refl _) (by omega)]

theorem drainStep_none {s} (h : splitFirstDelim s = none) :
    drainStep s = ([], s) := by
  rw [drainStep]
  cases hl : s.length with
  | zero => rfl
  | succ n => rw [drainStepFuel, h]

theorem sseBlocksFuel_congr :
    ∀ {u : Nat} {v : Nat} {s : List Char}, s.length ≤ u → s.length ≤ v →
      sseBlocksFuel u s = sseBlocksFuel v s := by
  intro u
  induction u with
  | zero =>
    intro v s h1 h2
    have hs : s = [] := List.length_eq_zero.mp (Nat.le_zero.mp h1)
    subst hs
    cases v with
    | zero => rfl
    | succ b => simp [sseBlocksFuel, splitFirstDelim]
  | succ a ih =>
    intro v s h1 h2
    cases v with
    | zero =>
      have hs : s = [] := List.length_eq_zero.mp (Nat.le_zero.mp h2)
      subst hs
      simp [sseBlocksFuel, splitFirstDelim]
    | succ b =>
      rw [sseBlocksFuel, sseBlocksFuel]
      cases hsp : splitFirstDelim s with
      | none => rfl
      | some p =>
        obtain ⟨c, rest⟩ := p
        have hlen := splitFirstDelim_length hsp
        have := ih (s := rest) (v := b) (by omega) (by omega)
        simp [this]

theorem sseBlocks_delim {s c rest} (h : splitFirstDelim s = some (c, rest)) :
    sseBlocks s = c :: sseBlocks rest := by
  have hlen := splitFirstDelim_length h
  obtain ⟨m, hm⟩ : ∃ m, s.length = m + 1 := ⟨s.length - 1, by omega⟩
  rw [sseBlocks, hm, sseBlocksFuel, h]
  rw [sseBlocks, sseBlocksFuel_congr (v := m) (le_refl _) (by omega)]

theorem sseBlocks_none {s} (h : splitFirstDelim s = none) :
    sseBlocks s = if s = [] then [] else [s] := by
  rw [sseBlocks]
  cases hl : s.length with
  | zero => rfl
  | succ n => rw [sseBlocksFuel, h]

theorem splitFirstDelim_append_some {s c r} (t : List Char)
    (h : splitFirstDelim s = some (c, r)) :
    splitFirstDelim (s ++ t) = some (c, r ++ t) := by
  induction s generalizing c r with
  | nil => simp [splitFirstDelim] at h
  | cons x rest ih =>
    rw [splitFirstDelim] at h
    rw [List.cons_append, splitFirstDelim]
    split at h
    · rename_i hx
      obtain ⟨hx1, hx2⟩ := hx
      obtain ⟨u, rfl⟩ : ∃ u, rest = '\n' :: u := by
        cases rest with
        | nil => simp at hx2
        | cons y u =>
          simp only [List.head?_cons, Option.some.injEq] at hx2
          exact ⟨u, by rw [hx2]⟩
      simp only [Option.some.injEq, Prod.mk.injEq] at h
      obtain ⟨hc, hr⟩ := h
      subst hc hr hx1
      rw [if_pos ⟨rfl, by simp⟩]
      simp
    · rename_i hx
      cases rest with
      | nil => simp [splitFirstDelim] at h
      | cons y u =>
        rw [if_neg (by simpa using hx)]
        cases hsp : splitFirstDelim (y :: u) with
        | none => simp [hsp] at h
        | some p =>
          obtain ⟨p1, p2⟩ := p
          simp only [hsp, Option.map_some'] at h
          simp only [Option.some.injEq, Prod.mk.injEq] at h
          obtain ⟨hc, hr⟩ := h
          subst hc hr
          rw [ih hsp]
          rfl

theorem sseEventsOf_delim {s c r} (h : splitFirstDelim s = some (c, r)) :
    sseEventsOf s = (parseSseChunkL c).toList ++ sseEventsOf r := by
  rw [sseEventsOf, sseBlocks_delim h, List.filterMap_cons, ← sseEventsOf]
  cases hp : parseSseChunkL c <;> simp [hp]

theorem sseEventsOf_noDelim {s} (h : splitFirstDelim s = none) :
    sseEventsOf s = if s = [] then [] else (parseSseChunkL s).toList := by
  rw [sseEventsOf, sseBlocks_none h]
  split
  · simp
  · cases hp : parseSseChunkL s <;> simp [hp]

theorem drainStep_noDelim_aux :
    ∀ (n : Nat) (s : List Char), s.length ≤ n → splitFirstDelim (drainStep s).2 = none := by
  intro n
  induction n with
  | zero =>
    intro s h
    have hs : s = [] := List.length_eq_zero.mp (Nat.le_zero.mp h)
    subst hs
    rw [drainStep_none (by simp [splitFirstDelim])]
    simp [splitFirstDelim]
  | succ m ih =>
    intro s h
    cases hsp : splitFirstDelim s with
    | none => rw [drainStep_none hsp]; exact hsp
    | some p =>
      obtain ⟨c, rest⟩ := p
      have hlen := splitFirstDelim_length hsp
      rw [drainStep_delim hsp]
      exact ih rest (by omega)

theorem drainStep_noDelim (s : List Char) :
    splitFirstDelim (drainStep s).2 = none :=
  drainStep_noDelim_aux s.length s (le_refl _)

theorem sseEventsOf_append_drainStep_aux :
    ∀ (n : Nat) (s t : List Char), s.length ≤ n →
      sseEventsOf (s ++ t) = (drainStep s).1 ++ sseEventsOf ((drainStep s).2 ++ t) := by
  intro n
  induction n with
  | zero =>
    intro s t h
    have hs : s = [] := List.length_eq_zero.mp (Nat.le_zero.mp h)
    subst hs
    rw [drainStep_none (by simp [splitFirstDelim])]
    simp
  | succ m ih =>
    intro s t h
    cases hsp : splitFirstDelim s with
    | none =>
      rw [drainStep_none hsp]
      simp
    | some p =>
      obtain ⟨c, rest⟩ := p
      have hlen := splitFirstDelim_length hsp
      rw [drainStep_delim hsp]
      rw [sseEventsOf_delim (splitFirstDelim_append_some t hsp), ih rest t (by omega)]
      simp

theorem sseEventsOf_append_drainStep (s t : List Char) :
    sseEventsOf (s ++ t) =
      (drainStep s).1 ++ sseEventsOf ((drainStep s).2 ++ t) :=
  sseEventsOf_append_drainStep_aux s.length s t (le_refl _)

/-- Incremental draining of the SSE stream agrees with splitting the fully
buffered (per-chunk normalized) text at every blank-line delimiter. -/
theorem drainL_eq_batch (buffer : List Char) (chunks : List (List Char)) :
    drainL buffer chunks = sseEventsOf (buffer ++ (chunks.map normalizeCRLF).flatten) := by
  induction chunks generalizing buffer with
  | nil =>
    rw [drainL]
    have h1 := sseEventsOf_append_drainStep buffer []
    rw [List.append_nil, List.append_nil] at h1
    rw [List.map_nil, List.flatten_nil, List.append_nil, h1,
      sseEventsOf_noDelim (drainStep_noDelim buffer)]
  | cons ch cs ih =>
    rw [drainL, ih]
    have h1 := sseEventsOf_append_drainStep buffer (normalizeCRLF ch ++ (cs.map normalizeCRLF).flatten)
    simp only [List.map_cons, List.flatten_cons, ← List.append_assoc] at h1 ⊢
    rw [h1]

theorem procLine_datas (st : ChunkSt) (l : List Char) :
    (procLine st l).datas = st.datas ++ (specDataOf l).toList := by
  unfold procLine specDataOf
  split_ifs <;> simp_all

theorem procLine_event (st : ChunkSt) (l : List Char) :
    (procLine st l).event = (specEventOf l).getD st.event := by
  unfold procLine specEventOf
  split_ifs <;> simp_all

theorem getLast?_getD_cons {α : Type} (L : List α) (a d : α) :
    ((a :: L).getLast?).getD d = (L.getLast?).getD a := by
  induction L generalizing a with
  | nil => simp
  | cons b M ih =>
    rw [List.getLast?_cons_cons]
    cases h : (b :: M).getLast? with
    | none => simp at h
    | some v => simp [h]

theorem foldl_procLine_datas (ls : List (List Char)) (e0 : List Char)
    (d0 : List (List Char)) :
    (ls.foldl procLine ⟨e0, d0⟩).datas = d0 ++ ls.filterMap specDataOf := by
  induction ls generalizing e0 d0 with
  | nil => simp
  | cons l ls ih =>
    rw [List.foldl_cons]
    have h1 : procLine ⟨e0, d0⟩ l =
        ⟨(specEventOf l).getD e0, d0 ++ (specDataOf l).toList⟩ := by
      have := procLine_datas ⟨e0, d0⟩ l
      have := procLine_event ⟨e0, d0⟩ l
      cases h : procLine ⟨e0, d0⟩ l
      simp_all
    rw [h1, ih, List.filterMap_cons]
    cases h : specDataOf l <;> simp [h]

theorem foldl_procLine_event (ls : List (List Char)) (e0 : List Char)
    (d0 : List (List Char)) :
    (ls.foldl procLine ⟨e0, d0⟩).event = ((ls.filterMap specEventOf).getLast?).getD e0 := by
  induction ls generalizing e0 d0 with
  | nil => simp
  | cons l ls ih =>
    rw [List.foldl_cons]
    have h1 : procLine ⟨e0, d0⟩ l =
        ⟨(specEventOf l).getD e0, d0 ++ (specDataOf l).toList⟩ := by
      have := procLine_datas ⟨e0, d0⟩ l
      have := procLine_event ⟨e0, d0⟩ l
      cases h : procLine ⟨e0, d0⟩ l
      simp_all
    rw [h1, ih, List.filterMap_cons]
    cases h : specEventOf l with
    | none => simp
    | some v => simp [getLast?_getD_cons]

/-- `parseSseChunk` computes exactly the spec-shaped description. -/
theorem parseSseChunkL_eq_spec (chunk : List Char) :
    parseSseChunkL chunk = sseChunkSpec chunk := by
  unfold parseSseChunkL parseSseLines sseChunkSpec
  simp only [foldl_procLine_event, foldl_procLine_datas, List.nil_append]

/-- C9 (counterexample): the SSE event parser is not a pure function of the
incoming byte stream with `\r\n` fully normalized: normalization is applied
per decoded chunk, so a `\r\n` pair split across two reads escapes it.  The
same bytes `"data: x\r\n\r\ndata: y\n\n"` delivered whole produce the two
events `x` and `y`, but delivered cut between the `\r` and the `\n` of the
`\r\n\r\n` delimiter they produce the single merged event `x\ny`. -/
theorem C9_sse_framing_counterexample :
    chars "data: x\r\n\r" ++ chars "\ndata: y\n\n" = chars "data: x\r\n\r\ndata: y\n\n"
    ∧ drainL [] [chars "data: x\r\n\r\ndata: y\n\n"] =
        [⟨chars "message", chars "x"⟩, ⟨chars "message", chars "y"⟩]
    ∧ drainL [] [chars "data: x\r\n\r", chars "\ndata: y\n\n"] =
        [⟨chars "message", chars "x\ny"⟩] := by
  refine ⟨by decide, by decide, by decide⟩

/-- C9 (amended): the SSE event parser, as a function of the decoded chunk
sequence.  (1) Framing: draining the stream equals cutting the concatenation
of the per-chunk `\r\n`-normalized text at every blank-line delimiter —
partial chunks are buffered until a delimiter arrives, and a non-empty
trailing buffer at end of stream is parsed as one final block (both visible
in `sseBlocks`).  (2) Per-block parsing equals the spec-shaped description:
comment (`:`) and blank lines are ignored, the last `event:` line sets the
event name (default `"message"` when absent), and `data:` payloads
accumulate, trimmed, joined with `"\n"` in order. -/
theorem C9_sse_framing :
    (∀ chunks : List (List Char),
       drainL [] chunks = sseEventsOf ((chunks.map normalizeCRLF).flatten))
    ∧ (∀ chunk : List Char, parseSseChunkL chunk = sseChunkSpec chunk) := by
  constructor
  · intro chunks
    simpa using drainL_eq_batch [] chunks
  · exact parseSseChunkL_eq_spec

/-! ## Shared lemmas about the transport models -/

theorem postJsonRpcM_parse_ok {pj : List Char → Option Json} {pid : String}
    {st : Nat} {raw : List Char} {j : Json}
    (hst : statusOk st = true) (hne : jsTrimL raw ≠ [])
    (hpj : pj (jsTrimL raw) = some j) :
    postJsonRpcM pj pid (.resp st (.text raw)) = .ok j := by
  rw [postJsonRpcM]
  simp [hst, hne, hpj]

theorem postJsonRpcM_parse_fail {pj : List Char → Option Json} {pid : String}
    {st : Nat} {raw : List Char}
    (hst : statusOk st = true) (hne : jsTrimL raw ≠ [])
    (hpj : pj (jsTrimL raw) = none) :
    postJsonRpcM pj pid (.resp st (.text raw)) =
      .error (.client "Failed to parse JSON-RPC response" "invalid_json") := by
  rw [postJsonRpcM]
  simp [hst, hne, hpj]

theorem postJsonRpcM_empty_body {pj : List Char → Option Json} {pid : String}
    {st : Nat} {raw : List Char}
    (hst : statusOk st = true) (hemp : jsTrimL raw = []) :
    postJsonRpcM pj pid (.resp st (.text raw)) =
      .ok (Json.obj [("jsonrpc", .str "2.0"), ("id", .str pid)]) := by
  rw [postJsonRpcM]
  simp [hst, hemp]

/-- A POST whose response parses successfully ends the loop at once with the
parsed body, whatever its contents. -/
theorem httpLoopM_ok {pj : List Char → Option Json} {url method pid : String}
    {warnOn : Bool} {posts gets : Nat → FetchOutcome}
    {retriesLeft pIdx gIdx : Nat} {ws : List String} {j : Json}
    (hpost : postJsonRpcM pj pid (posts pIdx) = .ok j) :
    httpLoopM pj url method pid warnOn posts gets retriesLeft pIdx gIdx ws =
      ⟨.ok j, ws, pIdx + 1, gIdx⟩ := by
  rw [httpLoopM]
  simp [hpost]

theorem sseValidate_ok {pj : List Char → Option Json} {data : List Char} {j : Json}
    (hpj : pj data = some j) (ht : isTruthy j = true)
    (herr : jsGet j "error" = none) :
    sseValidate pj data = .ok j := by
  rw [sseValidate]
  simp [hpj, ht, herr]

theorem sseValidate_mcp_error {pj : List Char → Option Json} {data : List Char}
    {j e : Json} (hpj : pj data = some j) (ht : isTruthy j = true)
    (herr : jsGet j "error" = some e) (het : isTruthy e = true) :
    ∃ m, sseValidate pj data = .error (.client m "mcp_error") := by
  rw [sseValidate]
  simp [hpj, ht, herr, het]

theorem sseValidate_parse_fail {pj : List Char → Option Json} {data : List Char}
    (hpj : pj data = none) :
    sseValidate pj data =
      .error (.client "Failed to parse response payload" "invalid_json") := by
  rw [sseValidate]
  simp [hpj]

/-- The event returned by `waitFor` is the first one satisfying the
predicate. -/
theorem findConsume_fst {α : Type} (p : α → Bool) (l : List α) :
    (findConsume p l).map Prod.fst = l.find? p := by
  induction l with
  | nil => rfl
  | cons x xs ih =>
    rw [findConsume, List.find?]
    by_cases hx : p x = true
    · simp [hx]
    · simp only [Bool.not_eq_true] at hx
      simp [hx, ih]

/-- Removing an event the predicate rejects does not change which event is
found: rejected events are skipped, they neither end the wait nor alter the
match. -/
theorem find?_skip {α : Type} (p : α → Bool) (l1 : List α) (e : α)
    (l2 : List α) (hne : p e = false) :
    List.find? p (l1 ++ e :: l2) = List.find? p (l1 ++ l2) := by
  induction l1 with
  | nil => simp [List.find?, hne]
  | cons x xs ih =>
    simp only [List.cons_append, List.find?]
    cases p x
    · simpa using ih
    · rfl

theorem findConsume_sound {α : Type} {p : α → Bool} {l : List α} {e : α}
    {rest : List α} (h : findConsume p l = some (e, rest)) : p e = true := by
  induction l generalizing rest with
  | nil => simp [findConsume] at h
  | cons x xs ih =>
    rw [findConsume] at h
    by_cases hx : p x = true
    · rw [if_pos hx] at h
      simp only [Option.some.injEq, Prod.mk.injEq] at h
      obtain ⟨h1, _⟩ := h
      subst h1
      exact hx
    · rw [if_neg hx] at h
      exact ih h

/-! ## Claim theorems -/

/-- C6: exhibit of the retry policy at the failing input.
`isRetryableError` compares the error code against `'http_timeout'`, but a
timed-out POST throws `McpClientError` with MESSAGE `'http_timeout'` and CODE
`'timeout'`, so a timeout is surfaced after a single attempt instead of being
retried; a `network_error` POST is retried once (two attempts total); an HTTP
status error is surfaced immediately after one attempt, with the status in
its message. -/
theorem C6_retry_policy_exhibit :
    isRetryableErrorM "timeout" = false
    ∧ isRetryableErrorM "network_error" = true
    ∧ postJsonRpcM pjNone "req-1" .timeout = .error (.client "http_timeout" "timeout")
    ∧ httpLoopM pjNone "http://srv/mcp" "tools/call" "req-1" false
        (fun _ => .timeout) (fun _ => .resp 200 (.text [])) 1 0 0 [] =
        ⟨.error (.client "http_timeout" "timeout"), [], 1, 0⟩
    ∧ httpLoopM pjNone "http://srv/mcp" "tools/call" "req-1" false
        (fun _ => .netError "ECONNRESET") (fun _ => .resp 200 (.text [])) 1 0 0 [] =
        ⟨.error (.client "ECONNRESET" "network_error"), [], 2, 0⟩
    ∧ httpLoopM pjNone "http://srv/mcp" "tools/call" "req-1" false
        (fun _ => .resp 500 (.text [])) (fun _ => .resp 200 (.text [])) 1 0 0 [] =
        ⟨.error (.client "Request failed at http://srv/mcp (status 500)." "http_error"),
         [], 1, 0⟩ :=
  ⟨rfl, rfl, rfl, rfl, rfl, rfl⟩

/-- C7 (counterexample): a server-supplied tool record without a usable
`name` is coerced to the sentinel `"unknown"`, not `"unknown_tool"` as the
claim states. -/
theorem C7_sentinel_counterexample :
    normalizeTool (Json.obj []) = ⟨"unknown", none⟩
    ∧ listToolsFrom (.ok (Json.obj [("jsonrpc", .str "2.0"), ("id", .str "req-1"),
        ("result", .obj [("tools", .arr [.obj []])])])) [] =
        .ok ⟨[⟨"unknown", none⟩], none⟩
    ∧ "unknown" ≠ "unknown_tool" :=
  ⟨rfl, rfl, by decide⟩

/-- C7 (amended): in a `tools/list` result, a record whose `name` is missing
or not a string is coerced to the sentinel `"unknown"` (not `"unknown_tool"`)
and kept; a string name is kept verbatim; no record is ever dropped (the
returned list has exactly one descriptor per server record). -/
theorem C7_tool_name_coercion :
    (∀ t : Json, (∀ s, jsGet t "name" ≠ some (.str s)) →
      (normalizeTool t).name = "unknown")
    ∧ (∀ (t : Json) (s : String), jsGet t "name" = some (.str s) →
      (normalizeTool t).name = s)
    ∧ (∀ (resp : Json) (ws : List String) (out : ListToolsRes),
      listToolsFrom (.ok resp) ws = .ok out →
      out.tools.length = (toolsArray resp).length) := by
  refine ⟨?_, ?_, ?_⟩
  · intro t h
    rw [normalizeTool]
    cases hn : jsGet t "name" with
    | none => rfl
    | some v =>
      cases v with
      | str s => exact absurd hn (h s)
      | null => rfl
      | bool b => rfl
      | num n => rfl
      | arr xs => rfl
      | obj fs => rfl
  · intro t s h
    rw [normalizeTool]
    simp [h]
  · intro resp ws out h
    rw [listToolsFrom] at h
    simp only [Except.ok.injEq] at h
    subst h
    simp

/-- C7 (witness): the amended theorem applied to a concrete nameless record
and a concrete one-record response. -/
theorem C7_tool_name_coercion_witness :
    (normalizeTool (Json.obj [("description", .str "d")])).name = "unknown" :=
  C7_tool_name_coercion.1 (Json.obj [("description", .str "d")])
    (fun s h => by simp [jsGet, List.lookup] at h)

/-- C8 (counterexample): when the initial SSE connection attempt itself
times out — a timeout terminal state of the exchange — neither the stream
reader nor the connection is cleaned up (`controller.abort()` is never
reached), contradicting the claim that cleanup happens on every exit path. -/
theorem C8_cleanup_counterexample :
    sendViaSseM pjNone "req-1" ⟨.timeout, [], true, .timeout⟩ =
      (.error (.client "Handshake timed out" "timeout"), ⟨0, 0⟩) :=
  rfl

/-- C8 (amended): once the event stream is opened (handshake response ok with
a body), every exit of the SSE exchange — success, failure, or timeout —
cancels the stream reader and aborts the connection exactly once; a
handshake response failure aborts the never-read connection exactly once;
but a timeout or network rejection of the initial connection attempt itself
propagates without any cleanup. -/
theorem C8_sse_cleanup (pj : List Char → Option Json) (pid : String) (w : SseWorld) :
    ((∃ s, w.connect = .resp s true ∧ statusOk s = true) →
      (sendViaSseM pj pid w).2 = ⟨1, 1⟩)
    ∧ (∀ s b, w.connect = .resp s b → statusOk s = false ∨ b = false →
      (sendViaSseM pj pid w).2 = ⟨0, 1⟩)
    ∧ ((w.connect = .timeout ∨ ∃ m, w.connect = .netError m) →
      (sendViaSseM pj pid w).2 = ⟨0, 0⟩) := by
  refine ⟨?_, ?_, ?_⟩
  · rintro ⟨s, hc, hok⟩
    rw [sendViaSseM, hc]
    simp [hok]
  · intro s b hc hfail
    rw [sendViaSseM, hc]
    rcases hfail with h | h
    · simp [h]
    · subst h
      simp
  · rintro (hc | ⟨m, hc⟩) <;> rw [sendViaSseM, hc]

/-- C8 (witness): the amended theorem applied to a concrete opened stream
(all three branches instantiated). -/
theorem C8_sse_cleanup_witness :
    (sendViaSseM pjNone "req-1" ⟨.resp 200 true, [], true, .resp 200⟩).2 = ⟨1, 1⟩
    ∧ (sendViaSseM pjNone "req-1" ⟨.resp 500 true, [], true, .resp 200⟩).2 = ⟨0, 1⟩
    ∧ (sendViaSseM pjNone "req-1" ⟨.netError "ECONNREFUSED", [], true, .resp 200⟩).2 = ⟨0, 0⟩ :=
  ⟨(C8_sse_cleanup pjNone "req-1" ⟨.resp 200 true, [], true, .resp 200⟩).1
      ⟨200, rfl, rfl⟩,
   (C8_sse_cleanup pjNone "req-1" ⟨.resp 500 true, [], true, .resp 200⟩).2.1
      500 true rfl (Or.inl rfl),
   (C8_sse_cleanup pjNone "req-1" ⟨.netError "ECONNREFUSED", [], true, .resp 200⟩).2.2
      (Or.inr ⟨"ECONNREFUSED", rfl⟩)⟩

/-- C10: whenever the transport exchange resolves with a response whose
`result` lacks a `tools` array — an empty body synthesized as an implicit
null result, a 200 body carrying an `error` object, or a body with a
non-matching `id` are all such responses — `listTools` returns the success
shape with an empty tools list, not a failure. -/
theorem C10_missing_tools_array (pj : List Char → Option Json)
    (url hsUrl pid : String) (w : RpcWorld) (resp : Json) (ws : List String)
    (hok : sendRpcM pj url hsUrl "tools/list" pid true w = (.ok resp, ws))
    (hnotools : ∀ r xs, jsGet resp "result" = some r → jsGet r "tools" ≠ some (.arr xs)) :
    listToolsM pj url hsUrl pid w = .ok ⟨[], if ws = [] then none else some ws⟩ := by
  have harr : toolsArray resp = [] := by
    unfold toolsArray
    split
    · rename_i r hr
      split
      · rename_i xs ht
        exact absurd ht (hnotools r xs hr)
      · rfl
    · rfl
  rw [listToolsM, hok, listToolsFrom, harr]
  rfl

/-- C10 (witness): a 200 response with an empty body is synthesized as
`{jsonrpc:'2.0', id}` with no `result`, so `listTools` succeeds with an
empty tools list and no warnings. -/
theorem C10_missing_tools_array_witness :
    listToolsM pjNone "http://srv/mcp" "" "req-1"
      (.http ⟨.resp 200 (.text []), .resp 200 (.text []),
        fun _ => .resp 200 (.text []), fun _ => .resp 200 (.text [])⟩) =
      .ok ⟨[], none⟩ :=
  C10_missing_tools_array pjNone "http://srv/mcp" "" "req-1"
    (.http ⟨.resp 200 (.text []), .resp 200 (.text []),
      fun _ => .resp 200 (.text []), fun _ => .resp 200 (.text [])⟩)
    (Json.obj [("jsonrpc", .str "2.0"), ("id", .str "req-1")]) []
    rfl
    (fun r xs hr => by simp [jsGet, List.lookup] at hr)

/-- C2 (counterexample): a successfully parsed HTTP response whose `jsonrpc`
field is `"1.0"` is accepted as the call's result — no failure of kind
`invalid_json` is raised — so a successful call's response version need not
be `"2.0"`. -/
theorem C2_version_counterexample :
    postJsonRpcM pjV1 "req-1" (.resp 200 (.text rawV1)) = .ok jsonV1
    ∧ jsGet jsonV1 "jsonrpc" = some (.str "1.0")
    ∧ ("1.0" : String) ≠ "2.0" :=
  ⟨rfl, rfl, by decide⟩

/-- C2 (amended): neither transport validates the protocol version: on HTTP,
any successfully `JSON.parse`d non-empty body is returned as-is whatever its
`jsonrpc` field, and `invalid_json` arises exactly from a body that fails to
parse; on SSE, any truthy parsed payload without a truthy `error` field is
returned as-is whatever its `jsonrpc` field, and `invalid_json` arises
exactly from a payload that fails to parse (or parses to a falsy value). -/
theorem C2_no_version_validation :
    (∀ (pj : List Char → Option Json) (pid : String) (st : Nat) (raw : List Char) (j : Json),
      statusOk st = true → jsTrimL raw ≠ [] → pj (jsTrimL raw) = some j →
      postJsonRpcM pj pid (.resp st (.text raw)) = .ok j)
    ∧ (∀ (pj : List Char → Option Json) (pid : String) (st : Nat) (raw : List Char),
      statusOk st = true → jsTrimL raw ≠ [] → pj (jsTrimL raw) = none →
      postJsonRpcM pj pid (.resp st (.text raw)) =
        .error (.client "Failed to parse JSON-RPC response" "invalid_json"))
    ∧ (∀ (pj : List Char → Option Json) (data : List Char) (j : Json),
      pj data = some j → isTruthy j = true → jsGet j "error" = none →
      sseValidate pj data = .ok j)
    ∧ (∀ (pj : List Char → Option Json) (data : List Char),
      pj data = none →
      sseValidate pj data =
        .error (.client "Failed to parse response payload" "invalid_json")) :=
  ⟨fun _ _ _ _ _ hst hne hpj => postJsonRpcM_parse_ok hst hne hpj,
   fun _ _ _ _ hst hne hpj => postJsonRpcM_parse_fail hst hne hpj,
   fun _ _ _ hpj ht herr => sseValidate_ok hpj ht herr,
   fun _ _ hpj => sseValidate_parse_fail hpj⟩

/-- C2 (witness): the amended theorem applied to the version-1.0 response. -/
theorem C2_no_version_validation_witness :
    postJsonRpcM pjV1 "req-1" (.resp 200 (.text rawV1)) = .ok jsonV1 :=
  C2_no_version_validation.1 pjV1 "req-1" 200 rawV1 jsonV1 rfl
    (by decide) rfl

/-- C3 (counterexample): the HTTP adapter resolves a 200 response whose
parsed body carries a populated `error` object as a SUCCESS, returning the
body as-is — no `mcp_error` failure — while the SSE adapter's validation of
the very same payload raises `mcp_error`.  The two adapters' semantics are
not identical and the HTTP one does not treat `error` as a failure. -/
theorem C3_error_field_counterexample :
    (sendViaHttpM pjErr "http://srv/mcp" "" "tools/call" "req-1" false
      ⟨.resp 200 (.text []), .resp 200 (.text []),
       fun _ => .resp 200 (.text rawErr), fun _ => .resp 200 (.text [])⟩).result =
      .ok jsonErr
    ∧ jsGet jsonErr "error" =
        some (.obj [("code", .num (-32000)), ("message", .str "boom")])
    ∧ isTruthy (.obj [("code", .num (-32000)), ("message", .str "boom")]) = true
    ∧ sseValidate pjErr rawErr = .error (.client "boom" "mcp_error") :=
  ⟨rfl, rfl, rfl, rfl⟩

/-- C3 (amended): only the SSE adapter treats a populated (truthy) `error`
field of the parsed payload as a protocol-level failure of kind `mcp_error`;
the HTTP adapter performs no such validation and resolves with the parsed
body unchanged, `error` field and all. -/
theorem C3_error_field_semantics :
    (∀ (pj : List Char → Option Json) (data : List Char) (j e : Json),
      pj data = some j → isTruthy j = true →
      jsGet j "error" = some e → isTruthy e = true →
      ∃ m, sseValidate pj data = .error (.client m "mcp_error"))
    ∧ (∀ (pj : List Char → Option Json) (url method pid : String) (warnOn : Bool)
        (posts gets : Nat → FetchOutcome) (retriesLeft pIdx gIdx : Nat)
        (ws : List String) (st : Nat) (raw : List Char) (j : Json),
      statusOk st = true → jsTrimL raw ≠ [] → pj (jsTrimL raw) = some j →
      posts pIdx = .resp st (.text raw) →
      httpLoopM pj url method pid warnOn posts gets retriesLeft pIdx gIdx ws =
        ⟨.ok j, ws, pIdx + 1, gIdx⟩) := by
  constructor
  · intro pj data j e hpj ht herr het
    exact sseValidate_mcp_error hpj ht herr het
  · intro pj url method pid warnOn posts gets retriesLeft pIdx gIdx ws st raw j
      hst hne hpj hposts
    exact httpLoopM_ok (by rw [hposts]; exact postJsonRpcM_parse_ok hst hne hpj)

/-- C3 (witness): the amended theorem applied to the concrete error-carrying
payload on both adapters. -/
theorem C3_error_field_semantics_witness :
    (∃ m, sseValidate pjErr rawErr = .error (.client m "mcp_error"))
    ∧ httpLoopM pjErr "http://srv/mcp" "tools/call" "req-1" false
        (fun _ => .resp 200 (.text rawErr)) (fun _ => .resp 200 (.text [])) 1 0 0 [] =
        ⟨.ok jsonErr, [], 1, 0⟩ :=
  ⟨C3_error_field_semantics.1 pjErr rawErr jsonErr
      (.obj [("code", .num (-32000)), ("message", .str "boom")]) rfl rfl rfl rfl,
   C3_error_field_semantics.2 pjErr "http://srv/mcp" "tools/call" "req-1" false
      (fun _ => .resp 200 (.text rawErr)) (fun _ => .resp 200 (.text [])) 1 0 0 []
      200 rawErr jsonErr rfl (by decide) rfl rfl⟩

/-- C4 (counterexample): on the HTTP transport a 200 response whose `id` is
`"other"` is accepted as the result of request `"req-1"` — the id is never
compared — so it is not true that on either transport a response is accepted
only when its id matches. -/
theorem C4_id_counterexample :
    (sendViaHttpM pjOther "http://srv/mcp" "" "tools/call" "req-1" false
      ⟨.resp 200 (.text []), .resp 200 (.text []),
       fun _ => .resp 200 (.text rawOther), fun _ => .resp 200 (.text [])⟩).result =
      .ok jsonOther
    ∧ jsGet jsonOther "id" = some (.str "other")
    ∧ ("other" : String) ≠ "req-1" :=
  ⟨rfl, rfl, by decide⟩

/-- C4 (amended): on the SSE transport, `waitForMessage` accepts an event
only if it is named `message` and its decoded JSON `id` equals the request
id; events the predicate rejects (including `message` events with a
non-matching id) are discarded without changing which event is found and
without being treated as errors or timeouts.  The HTTP transport performs no
id comparison: a successfully parsed response body is accepted even when its
`id` provably differs from the request's. -/
theorem C4_id_correlation :
    (∀ (pj : List Char → Option Json) (pid : String) (es : List SseEventL)
        (e : SseEventL) (rest : List SseEventL),
      findConsume (msgMatch pj pid) es = some (e, rest) →
      e.event = chars "message"
      ∧ ∃ j, pj e.data = some j ∧ jsGet j "id" = some (.str pid))
    ∧ (∀ (pj : List Char → Option Json) (pid : String) (l1 : List SseEventL)
        (e : SseEventL) (l2 : List SseEventL),
      msgMatch pj pid e = false →
      ((findConsume (msgMatch pj pid) (l1 ++ e :: l2)).map Prod.fst =
        (findConsume (msgMatch pj pid) (l1 ++ l2)).map Prod.fst))
    ∧ (∀ (pj : List Char → Option Json) (pid other : String) (st : Nat)
        (raw : List Char) (j : Json),
      statusOk st = true → jsTrimL raw ≠ [] → pj (jsTrimL raw) = some j →
      jsGet j "id" = some (.str other) → other ≠ pid →
      postJsonRpcM pj pid (.resp st (.text raw)) = .ok j) := by
  refine ⟨?_, ?_, ?_⟩
  · intro pj pid es e rest h
    have hm := findConsume_sound h
    rw [msgMatch] at hm
    rw [Bool.and_eq_true] at hm
    obtain ⟨h1, h2⟩ := hm
    refine ⟨by simpa using h1, ?_⟩
    split at h2
    · rename_i j hpj
      split at h2
      · rename_i s hid
        exact ⟨j, hpj, by rw [hid, beq_iff_eq.mp h2]⟩
      · simp at h2
    · simp at h2
  · intro pj pid l1 e l2 hne
    rw [findConsume_fst, findConsume_fst]
    exact find?_skip _ l1 e l2 hne
  · intro pj pid other st raw j hst hne hpj _ _
    exact postJsonRpcM_parse_ok hst hne hpj

/-- C4 (witness): the amended theorem applied to a concrete stream (a
non-matching `message` event followed by the matching one) and to the
concrete mismatched-id HTTP response. -/
theorem C4_id_correlation_witness :
    (findConsume (msgMatch pjErr "req-1")
        [⟨chars "message", rawOther⟩, ⟨chars "message", rawErr⟩] =
      some (⟨chars "message", rawErr⟩, []) →
      (⟨chars "message", rawErr⟩ : SseEventL).event = chars "message"
      ∧ ∃ j, pjErr rawErr = some j ∧ jsGet j "id" = some (.str "req-1"))
    ∧ postJsonRpcM pjOther "req-1" (.resp 200 (.text rawOther)) = .ok jsonOther :=
  ⟨fun h => C4_id_correlation.1 pjErr "req-1"
      [⟨chars "message", rawOther⟩, ⟨chars "message", rawErr⟩]
      ⟨chars "message", rawErr⟩ [] h,
   C4_id_correlation.2.2 pjOther "req-1" "other" 200 rawOther jsonOther rfl
      (by decide) rfl rfl (by decide)⟩

/-- C1 (counterexample): `listTools` has no catch and `ListToolsResponse` has
no failure variant: against a server answering the `tools/list` POST with
status 500, `listTools` terminates with a thrown `McpClientError` instead of
returning any result value. -/
theorem C1_listTools_throws_counterexample :
    listToolsM pjNone "http://srv/mcp" "" "req-1" w500 =
      .error (.client ("Couldn't list tools at http://srv/mcp (status 500)." ++
        " This server may not implement JSON-RPC at this path.") "http_error") :=
  rfl

/-- C1 (amended): `listTools` does not catch transport failures — they
propagate to the caller as thrown `McpClientError`s, with the warning list
lost, and the worker's `/api/mcp/list` endpoint is what converts them into
an error payload (status 502, code `mcp_unreachable`); on success
`listTools` returns the normalized tools with the accumulated warnings, the
field omitted exactly when no warning accumulated. -/
theorem C1_listTools_propagation :
    (∀ (pj : List Char → Option Json) (url hsUrl pid : String) (w : RpcWorld)
        (e : CErr) (ws : List String),
      sendRpcM pj url hsUrl "tools/list" pid true w = (.error e, ws) →
      listToolsM pj url hsUrl pid w = .error e
      ∧ workerListM (listToolsM pj url hsUrl pid w) =
          .err 502 "mcp_unreachable" (asErrorMessageM e "Failed to list tools"))
    ∧ (∀ (pj : List Char → Option Json) (url hsUrl pid : String) (w : RpcWorld)
        (resp : Json) (ws : List String),
      sendRpcM pj url hsUrl "tools/list" pid true w = (.ok resp, ws) →
      listToolsM pj url hsUrl pid w =
        .ok ⟨(toolsArray resp).map normalizeTool, if ws = [] then none else some ws⟩
      ∧ workerListM (listToolsM pj url hsUrl pid w) =
          .ok 200 ⟨(toolsArray resp).map normalizeTool, if ws = [] then none else some ws⟩) := by
  constructor
  · intro pj url hsUrl pid w e ws h
    have h1 : listToolsM pj url hsUrl pid w = .error e := by
      rw [listToolsM, h, listToolsFrom]
    exact ⟨h1, by rw [h1, workerListM]⟩
  · intro pj url hsUrl pid w resp ws h
    have h1 : listToolsM pj url hsUrl pid w =
        .ok ⟨(toolsArray resp).map normalizeTool, if ws = [] then none else some ws⟩ := by
      rw [listToolsM, h, listToolsFrom]
    exact ⟨h1, by rw [h1, workerListM]⟩

/-- C1 (witness): the amended theorem applied to the concrete 500-answering
world (failure branch) and to an empty-body success world. -/
theorem C1_listTools_propagation_witness :
    (listToolsM pjNone "http://srv/mcp" "" "req-1" w500 =
      .error (.client ("Couldn't list tools at http://srv/mcp (status 500)." ++
        " This server may not implement JSON-RPC at this path.") "http_error")
    ∧ workerListM (listToolsM pjNone "http://srv/mcp" "" "req-1" w500) =
      .err 502 "mcp_unreachable" ("Couldn't list tools at http://srv/mcp (status 500)." ++
        " This server may not implement JSON-RPC at this path.")) :=
  C1_listTools_propagation.1 pjNone "http://srv/mcp" "" "req-1" w500
    (.client ("Couldn't list tools at http://srv/mcp (status 500)." ++
      " This server may not implement JSON-RPC at this path.") "http_error") []
    rfl

/-! ## Lemmas about the JS header-map operations (for the GET fallback) -/

theorem mem_jsSet {m : List (String × String)} {k v : String}
    {kv : String × String} (h : kv ∈ jsSet m k v) : kv = (k, v) ∨ kv ∈ m := by
  rw [jsSet] at h
  split at h
  · rw [List.mem_map] at h
    obtain ⟨kv0, hkv0, hf⟩ := h
    by_cases hk : kv0.1 == k
    · left; rw [← hf]; simp [hk]
    · right
      rw [← hf]
      simp only [hk, if_false]
      simpa using hkv0
  · rw [List.mem_append] at h
    rcases h with h | h
    · right; exact h
    · left; simpa using h

theorem mem_jsSpread {base extra : List (String × String)}
    {kv : String × String} (h : kv ∈ jsSpread base extra) :
    kv ∈ base ∨ ∃ kv0 ∈ extra, kv = (kv0.1, kv0.2) ∨ kv.1 = kv0.1 := by
  induction extra generalizing base with
  | nil => exact Or.inl h
  | cons e rest ih =>
    rw [jsSpread, List.foldl_cons] at h
    rcases ih (by rw [jsSpread]; exact h) with h1 | h1
    · rcases mem_jsSet h1 with h2 | h2
      · exact Or.inr ⟨e, List.mem_cons_self _ _, Or.inl (by rw [h2])⟩
      · exact Or.inl h2
    · obtain ⟨kv0, hkv0, hor⟩ := h1
      exact Or.inr ⟨kv0, List.mem_cons_of_mem _ hkv0, hor⟩

theorem lookup_cons_ne {k : String} {kv : String × String}
    {rest : List (String × String)} (h : k ≠ kv.1) :
    List.lookup k (kv :: rest) = List.lookup k rest := by
  rw [List.lookup_cons]
  simp [beq_false_of_ne h]

theorem lookup_cons_self {k v : String} {rest : List (String × String)} :
    List.lookup k ((k, v) :: rest) = some v := by
  simp [List.lookup_cons]

theorem lookup_map_set_self {k v : String} :
    ∀ m : List (String × String), m.any (fun kv => kv.1 == k) = true →
      List.lookup k (m.map (fun kv => if kv.1 == k then (k, v) else kv)) = some v := by
  intro m
  induction m with
  | nil => intro h; simp at h
  | cons kv0 rest ih =>
    intro h
    rw [List.map_cons]
    by_cases hk : (kv0.1 == k) = true
    · rw [if_pos hk]
      exact lookup_cons_self
    · rw [if_neg hk]
      rw [lookup_cons_ne (fun he => hk (by simp [he]))]
      apply ih
      rw [List.any_cons] at h
      simpa [hk] using h

theorem lookup_append_single_self {k v : String} :
    ∀ m : List (String × String), m.any (fun kv => kv.1 == k) = false →
      List.lookup k (m ++ [(k, v)]) = some v := by
  intro m
  induction m with
  | nil => exact fun _ => lookup_cons_self
  | cons kv0 rest ih =>
    intro h
    rw [List.any_cons] at h
    simp only [Bool.or_eq_false_iff] at h
    rw [List.cons_append, lookup_cons_ne (fun he => by simp [he] at h)]
    exact ih h.2

theorem lookup_jsSet_self (m : List (String × String)) (k v : String) :
    (jsSet m k v).lookup k = some v := by
  rw [jsSet]
  split
  · rename_i hany
    exact lookup_map_set_self m hany
  · rename_i hany
    exact lookup_append_single_self m (Bool.eq_false_iff.mpr hany)

theorem lookup_map_set_ne {k2 k v : String} (hne : k2 ≠ k) :
    ∀ m : List (String × String),
      List.lookup k2 (m.map (fun kv => if kv.1 == k then (k, v) else kv)) =
        List.lookup k2 m := by
  intro m
  induction m with
  | nil => rfl
  | cons kv0 rest ih =>
    rw [List.map_cons]
    by_cases hk : (kv0.1 == k) = true
    · rw [if_pos hk]
      rw [lookup_cons_ne (by simpa using hne)]
      rw [lookup_cons_ne (fun he => hne (by simpa [he] using hk))]
      exact ih
    · rw [if_neg hk]
      by_cases hkk : k2 = kv0.1
      · subst hkk
        rw [List.lookup_cons, List.lookup_cons]
        simp
      · rw [lookup_cons_ne hkk, lookup_cons_ne hkk]
        exact ih

theorem lookup_append_single_ne {k2 k v : String} (hne : k2 ≠ k) :
    ∀ m : List (String × String),
      List.lookup k2 (m ++ [(k, v)]) = List.lookup k2 m := by
  intro m
  induction m with
  | nil => simp [List.lookup, beq_false_of_ne hne]
  | cons kv0 rest ih =>
    rw [List.cons_append]
    by_cases hkk : k2 = kv0.1
    · subst hkk
      rw [List.lookup_cons, List.lookup_cons]
      simp [ih]
    · rw [lookup_cons_ne hkk, lookup_cons_ne hkk]
      exact ih

theorem lookup_jsSet_ne {k2 k : String} (m : List (String × String)) (v : String)
    (hne : k2 ≠ k) : (jsSet m k v).lookup k2 = m.lookup k2 := by
  rw [jsSet]
  split
  · exact lookup_map_set_ne hne m
  · exact lookup_append_single_ne hne m

theorem lookup_jsSpread_preserved {base extra : List (String × String)}
    {k v0 : String} (hbase : base.lookup k = some v0)
    (hextra : ∀ kv ∈ extra, kv.1 = k → kv.2 = v0) :
    (jsSpread base extra).lookup k = some v0 := by
  induction extra generalizing base with
  | nil => exact hbase
  | cons e rest ih =>
    rw [jsSpread, List.foldl_cons, ← jsSpread]
    apply ih
    · by_cases hk : e.1 = k
      · have hv : e.2 = v0 := hextra e (List.mem_cons_self _ _) hk
        rw [← hk, hv]
        exact lookup_jsSet_self base e.1 v0
      · rw [lookup_jsSet_ne base e.2 (fun he => hk he.symm)]
        exact hbase
    · exact fun kv hkv => hextra kv (List.mem_cons_of_mem _ hkv)

theorem mem_jsDelete {m : List (String × String)} {k : String}
    {kv : String × String} (h : kv ∈ jsDelete m k) : kv ∈ m ∧ kv.1 ≠ k := by
  rw [jsDelete] at h
  rw [List.mem_filter] at h
  exact ⟨h.1, by simpa using h.2⟩

theorem lookup_filter_ne {k2 k : String} (hne : k2 ≠ k) :
    ∀ m : List (String × String),
      List.lookup k2 (m.filter (fun kv => kv.1 ≠ k)) = List.lookup k2 m := by
  intro m
  induction m with
  | nil => rfl
  | cons kv0 rest ih =>
    rw [List.filter_cons]
    by_cases hk : kv0.1 = k
    · rw [if_neg (by simpa using hk)]
      rw [ih, lookup_cons_ne (fun he => hne (he.trans hk))]
    · rw [if_pos (by simpa using hk)]
      by_cases hkk : k2 = kv0.1
      · subst hkk
        rw [List.lookup_cons, List.lookup_cons]
        simp [ih]
      · rw [lookup_cons_ne hkk, lookup_cons_ne hkk, ih]

theorem lookup_jsDelete_ne {k2 k : String} (m : List (String × String))
    (hne : k2 ≠ k) : (jsDelete m k).lookup k2 = m.lookup k2 := by
  rw [jsDelete]
  exact lookup_filter_ne hne m

theorem jsSpread_pred {P : String × String → Prop} :
    ∀ {extra base : List (String × String)},
      (∀ kv ∈ base, P kv) → (∀ kv ∈ extra, P kv) →
      ∀ kv ∈ jsSpread base extra, P kv := by
  intro extra
  induction extra with
  | nil => intro base hbase _ kv hkv; exact hbase kv hkv
  | cons e rest ih =>
    intro base hbase hextra kv hkv
    rw [jsSpread, List.foldl_cons, ← jsSpread] at hkv
    refine ih ?_ (fun kv0 h0 => hextra kv0 (List.mem_cons_of_mem _ h0)) kv hkv
    intro kv0 h0
    rcases mem_jsSet h0 with h1 | h1
    · rw [h1]
      have := hextra e (List.mem_cons_self _ _)
      simpa using this
    · exact hbase kv0 h1

/-- The fallback stage consumes at most one GET outcome per iteration. -/
theorem fallbackStage_gIdx (pj : List Char → Option Json) (url pid : String)
    (warnOn : Bool) (gets : Nat → FetchOutcome) (e : XErr) (gIdx : Nat)
    (ws : List String) :
    gIdx ≤ (fallbackStage pj url pid warnOn gets e gIdx ws).2.2
    ∧ (fallbackStage pj url pid warnOn gets e gIdx ws).2.2 ≤ gIdx + 1 := by
  rw [fallbackStage.eq_def]
  split
  · split_ifs <;> simp
  · simp

/-- A status error outside {405, 403, 404} passes through the fallback stage
untouched: no GET is issued. -/
theorem fallbackStage_no_trigger {s : Nat} {b : List Char}
    (pj : List Char → Option Json) (url pid : String) (warnOn : Bool)
    (gets : Nat → FetchOutcome) (gIdx : Nat) (ws : List String)
    (h405 : s ≠ 405) (h403 : s ≠ 403) (h404 : s ≠ 404) :
    fallbackStage pj url pid warnOn gets (.httpStatus s b) gIdx ws =
      (.error (.httpStatus s b), ws, gIdx) := by
  rw [fallbackStage.eq_def]
  dsimp only
  rw [if_neg (by simp [h405, h403]), if_neg h404]

/-- A client error passes through the fallback stage untouched. -/
theorem fallbackStage_client (pj : List Char → Option Json) (url pid : String)
    (warnOn : Bool) (gets : Nat → FetchOutcome) (m c : String) (gIdx : Nat)
    (ws : List String) :
    fallbackStage pj url pid warnOn gets (.client m c) gIdx ws =
      (.error (.client m c), ws, gIdx) :=
  rfl

/-- On 405/403 the fallback stage records the fallback warning and runs the
GET once, the GET's outcome replacing the POST's. -/
theorem fallbackStage_405_403 {s : Nat} {b : List Char}
    (pj : List Char → Option Json) (url pid : String) (warnOn : Bool)
    (gets : Nat → FetchOutcome) (gIdx : Nat) (ws : List String)
    (hs : s = 405 ∨ s = 403) :
    fallbackStage pj url pid warnOn gets (.httpStatus s b) gIdx ws =
      (getJsonRpcM pj pid (gets gIdx),
       pushW warnOn ws ("POST " ++ url ++
         " was rejected; retrying with GET jsonrpc query parameter."),
       gIdx + 1) := by
  rw [fallbackStage.eq_def]
  dsimp only
  rw [if_pos hs]

/-- On 404 the fallback stage records the 404 warning, then the fallback
warning, and runs the GET once. -/
theorem fallbackStage_404 {b : List Char} (pj : List Char → Option Json)
    (url pid : String) (warnOn : Bool) (gets : Nat → FetchOutcome)
    (gIdx : Nat) (ws : List String) :
    fallbackStage pj url pid warnOn gets (.httpStatus 404 b) gIdx ws =
      (getJsonRpcM pj pid (gets gIdx),
       pushW warnOn
         (pushW warnOn ws ("POST " ++ url ++ " returned 404; continuing without handshake."))
         ("POST " ++ url ++ " was rejected; retrying with GET jsonrpc query parameter."),
       gIdx + 1) := by
  rw [fallbackStage.eq_def]
  dsimp only
  rw [if_neg (by simp), if_pos rfl]

/-- Across the whole loop at most one GET per remaining attempt is issued:
starting with one retry left and no GET issued, at most two. -/
theorem httpLoopM_getCount_le (pj : List Char → Option Json)
    (url method pid : String) (warnOn : Bool) (posts gets : Nat → FetchOutcome) :
    ∀ (r pIdx gIdx : Nat) (ws : List String),
      (httpLoopM pj url method pid warnOn posts gets r pIdx gIdx ws).getCount ≤
        gIdx + r + 1 := by
  intro r
  induction r with
  | zero =>
    intro pIdx gIdx ws
    rw [httpLoopM]
    cases hpost : postJsonRpcM pj pid (posts pIdx) with
    | ok j => simp
    | error e =>
      dsimp only
      have hfb := fallbackStage_gIdx pj url pid warnOn gets e gIdx ws
      rcases hres : fallbackStage pj url pid warnOn gets e gIdx ws with ⟨res, ws2, g2⟩
      rw [hres] at hfb
      simp only at hfb
      cases res with
      | ok j => simpa using hfb.2
      | error e2 =>
        cases e2 with
        | httpStatus s2 b2 =>
          split_ifs <;> simpa using hfb.2
        | client m c => simpa using hfb.2
  | succ n ih =>
    intro pIdx gIdx ws
    rw [httpLoopM]
    cases hpost : postJsonRpcM pj pid (posts pIdx) with
    | ok j => simp; omega
    | error e =>
      dsimp only
      have hfb := fallbackStage_gIdx pj url pid warnOn gets e gIdx ws
      rcases hres : fallbackStage pj url pid warnOn gets e gIdx ws with ⟨res, ws2, g2⟩
      rw [hres] at hfb
      simp only at hfb
      cases res with
      | ok j => simp; omega
      | error e2 =>
        cases e2 with
        | httpStatus s2 b2 =>
          split_ifs <;> simp <;> omega
        | client m c =>
          try dsimp only
          split_ifs
          · exact le_trans (ih (pIdx + 1) g2 ws2) (by omega)
          · simp
            omega

theorem postJsonRpcM_status {pj : List Char → Option Json} {pid : String}
    {s : Nat} {body : BodyOutcome} (hst : statusOk s = false) :
    postJsonRpcM pj pid (.resp s body) =
      .error (.httpStatus s (match body with | .readError => [] | .text raw => raw)) := by
  rw [postJsonRpcM.eq_def]
  dsimp only
  rw [if_pos hst]

/-- C5 (counterexample): with a `tools/list` POST rejected 405 and the GET
fallback itself rejected 500, the error reported to the caller carries the
GET's status 500 — not the original POST's 405 error as the claim states
(`error = getError` replaces it). -/
theorem C5_fallback_counterexample :
    (sendViaHttpM pjNone "http://srv/mcp" "" "tools/list" "req-1" true
      ⟨.resp 200 (.text []), .resp 200 (.text []),
       fun _ => .resp 405 (.text []), fun _ => .resp 500 (.text [])⟩).result =
      .error (.client ("Couldn't list tools at http://srv/mcp (status 500)." ++
        " This server may not implement JSON-RPC at this path.") "http_error")
    ∧ (sendViaHttpM pjNone "http://srv/mcp" "" "tools/list" "req-1" true
      ⟨.resp 200 (.text []), .resp 200 (.text []),
       fun _ => .resp 405 (.text []), fun _ => .resp 500 (.text [])⟩).getCount = 1
    ∧ (CErr.client ("Couldn't list tools at http://srv/mcp (status 500)." ++
        " This server may not implement JSON-RPC at this path.") "http_error" ≠
       CErr.client ("Couldn't list tools at http://srv/mcp (status 405)." ++
        " This server may not implement JSON-RPC at this path.") "http_error") :=
  ⟨rfl, rfl, by decide⟩

/-- C5 (amended): the GET fallback of the HTTP transport.  (a) The fallback
request serializes the entire JSON-RPC payload into the `jsonrpc` query
parameter and carries `Accept: application/json` and no Content-Type header
(both spellings `Content-Type`/`content-type` are deleted; the `Accept`
value assumes the caller's extra headers do not override it).  (b1) Statuses outside {405, 403, 404} never
trigger the fallback: the POST's status error is classified and surfaced
immediately.  (b2) A 405/403 POST rejection triggers the fallback, recording
the fallback warning, and a successful GET's parsed body is returned.
(b3) A 404 additionally records its own warning first.  (b4) When the
fallback itself fails with a status error, the GET's status — not the
POST's — is what the classified `http_error` reports.  (b5) The fallback
runs at most once per primary attempt, hence at most twice per call. -/
theorem C5_get_fallback :
    (∀ (url : String) (payload : RpcPayloadM) (extra : List (String × String)),
      (∀ kv ∈ extra, kv.1 ≠ "Accept") →
      (getRequestOf url payload (sendHeaders extra)).queryJsonrpcPayload = payload
      ∧ (getRequestOf url payload (sendHeaders extra)).headers.lookup "Accept" =
          some "application/json"
      ∧ ∀ kv ∈ (getRequestOf url payload (sendHeaders extra)).headers,
          kv.1 ≠ "Content-Type" ∧ kv.1 ≠ "content-type")
    ∧ (∀ (pj : List Char → Option Json) (url method pid : String) (warnOn : Bool)
        (posts gets : Nat → FetchOutcome) (r pIdx gIdx : Nat) (ws : List String)
        (s : Nat) (body : BodyOutcome),
      posts pIdx = .resp s body → statusOk s = false →
      s ≠ 405 → s ≠ 403 → s ≠ 404 →
      httpLoopM pj url method pid warnOn posts gets r pIdx gIdx ws =
        ⟨.error (.client (if method = "tools/list" then
            "Couldn't list tools at " ++ url ++ " (status " ++ toString s ++
              "). This server may not implement JSON-RPC at this path."
          else "Request failed at " ++ url ++ " (status " ++ toString s ++ ").")
          "http_error"), ws, pIdx + 1, gIdx⟩)
    ∧ (∀ (pj : List Char → Option Json) (url method pid : String) (warnOn : Bool)
        (posts gets : Nat → FetchOutcome) (r pIdx gIdx : Nat) (ws : List String)
        (s : Nat) (body : BodyOutcome) (j : Json),
      posts pIdx = .resp s body → (s = 405 ∨ s = 403) →
      getJsonRpcM pj pid (gets gIdx) = .ok j →
      httpLoopM pj url method pid warnOn posts gets r pIdx gIdx ws =
        ⟨.ok j, pushW warnOn ws ("POST " ++ url ++
          " was rejected; retrying with GET jsonrpc query parameter."),
         pIdx + 1, gIdx + 1⟩)
    ∧ (∀ (pj : List Char → Option Json) (url method pid : String) (warnOn : Bool)
        (posts gets : Nat → FetchOutcome) (r pIdx gIdx : Nat) (ws : List String)
        (body : BodyOutcome) (j : Json),
      posts pIdx = .resp 404 body →
      getJsonRpcM pj pid (gets gIdx) = .ok j →
      httpLoopM pj url method pid warnOn posts gets r pIdx gIdx ws =
        ⟨.ok j, pushW warnOn
          (pushW warnOn ws ("POST " ++ url ++ " returned 404; continuing without handshake."))
          ("POST " ++ url ++ " was rejected; retrying with GET jsonrpc query parameter."),
         pIdx + 1, gIdx + 1⟩)
    ∧ (∀ (pj : List Char → Option Json) (url method pid : String) (warnOn : Bool)
        (posts gets : Nat → FetchOutcome) (r pIdx gIdx : Nat) (ws : List String)
        (s : Nat) (body : BodyOutcome) (s2 : Nat) (body2 : BodyOutcome),
      posts pIdx = .resp s body → (s = 405 ∨ s = 403) →
      gets gIdx = .resp s2 body2 → statusOk s2 = false →
      httpLoopM pj url method pid warnOn posts gets r pIdx gIdx ws =
        ⟨.error (.client (if method = "tools/list" then
            "Couldn't list tools at " ++ url ++ " (status " ++ toString s2 ++
              "). This server may not implement JSON-RPC at this path."
          else "Request failed at " ++ url ++ " (status " ++ toString s2 ++ ").")
          "http_error"),
         pushW warnOn ws ("POST " ++ url ++
           " was rejected; retrying with GET jsonrpc query parameter."),
         pIdx + 1, gIdx + 1⟩)
    ∧ (∀ (pj : List Char → Option Json) (url hsUrl method pid : String)
        (warnOn : Bool) (w : HttpWorld),
      (sendViaHttpM pj url hsUrl method pid warnOn w).getCount ≤ 2) := by
  refine ⟨?_, ?_, ?_, ?_, ?_, ?_⟩
  · intro url payload extra hextra
    refine ⟨rfl, ?_, ?_⟩
    · show (jsDelete (jsDelete (jsSpread [("Accept", "application/json")] (sendHeaders extra))
        "Content-Type") "content-type").lookup "Accept" = some "application/json"
      rw [lookup_jsDelete_ne _ (by decide : ("Accept" : String) ≠ "content-type")]
      rw [lookup_jsDelete_ne _ (by decide : ("Accept" : String) ≠ "Content-Type")]
      apply lookup_jsSpread_preserved (by simp [List.lookup])
      have hbaseA : ∀ kv0 ∈ ([("Accept", "application/json"),
          ("Content-Type", "application/json")] : List (String × String)),
          kv0.1 = "Accept" → kv0.2 = "application/json" := by
        intro kv0 h0
        simp only [List.mem_cons, List.not_mem_nil, or_false] at h0
        rcases h0 with h0 | h0 <;> subst h0 <;> decide
      exact jsSpread_pred hbaseA
        (fun kv0 h0 hacc => absurd hacc (hextra kv0 h0))
    · intro kv hkv
      rcases mem_jsDelete hkv with ⟨hkv1, hct⟩
      rcases mem_jsDelete hkv1 with ⟨hkv2, hCT⟩
      exact ⟨hCT, hct⟩
  · intro pj url method pid warnOn posts gets r pIdx gIdx ws s body hpost hst h405 h403 h404
    rw [httpLoopM, hpost, postJsonRpcM_status hst]
    dsimp only
    rw [fallbackStage_no_trigger pj url pid warnOn gets gIdx ws h405 h403 h404]
    dsimp only
    split_ifs <;> rfl
  · intro pj url method pid warnOn posts gets r pIdx gIdx ws s body j hpost hs hget
    have hst : statusOk s = false := by rcases hs with h | h <;> subst h <;> decide
    rw [httpLoopM, hpost, postJsonRpcM_status hst]
    dsimp only
    rw [fallbackStage_405_403 pj url pid warnOn gets gIdx ws hs, hget]
  · intro pj url method pid warnOn posts gets r pIdx gIdx ws body j hpost hget
    rw [httpLoopM, hpost, postJsonRpcM_status (by decide)]
    dsimp only
    rw [fallbackStage_404 pj url pid warnOn gets gIdx ws, hget]
  · intro pj url method pid warnOn posts gets r pIdx gIdx ws s body s2 body2
      hpost hs hget hst2
    have hst : statusOk s = false := by rcases hs with h | h <;> subst h <;> decide
    rw [httpLoopM, hpost, postJsonRpcM_status hst]
    dsimp only
    rw [fallbackStage_405_403 pj url pid warnOn gets gIdx ws hs, hget,
      getJsonRpcM, postJsonRpcM_status hst2]
    dsimp only
    split_ifs <;> rfl
  · intro pj url hsUrl method pid warnOn w
    rw [sendViaHttpM]
    exact le_trans (httpLoopM_getCount_le pj url method pid warnOn w.posts w.gets 1 0 0 _)
      (by omega)

/-- C5 (witness): the amended theorem applied to concrete inputs — the GET
request built from the default headers, a 405-then-successful-fallback loop,
and the two-GET bound at a concrete world. -/
theorem C5_get_fallback_witness :
    (getRequestOf "http://srv/mcp" ⟨"req-1", "tools/list", Json.obj []⟩
        (sendHeaders [])).headers.lookup "Accept" = some "application/json"
    ∧ httpLoopM pjNone "http://srv/mcp" "tools/list" "req-1" true
        (fun _ => .resp 405 (.text [])) (fun _ => .resp 200 (.text [])) 1 0 0 [] =
        ⟨.ok (Json.obj [("jsonrpc", .str "2.0"), ("id", .str "req-1")]),
         ["POST http://srv/mcp was rejected; retrying with GET jsonrpc query parameter."],
         1, 1⟩
    ∧ (sendViaHttpM pjNone "http://srv/mcp" "" "tools/list" "req-1" true
        ⟨.resp 200 (.text []), .resp 200 (.text []),
         fun _ => .resp 405 (.text []), fun _ => .resp 500 (.text [])⟩).getCount ≤ 2 :=
  ⟨(C5_get_fallback.1 "http://srv/mcp" ⟨"req-1", "tools/list", Json.obj []⟩ []
      (fun kv hkv => absurd hkv (List.not_mem_nil kv))).2.1,
   C5_get_fallback.2.2.1 pjNone "http://srv/mcp" "tools/list" "req-1" true
      (fun _ => .resp 405 (.text [])) (fun _ => .resp 200 (.text [])) 1 0 0 []
      405 (.text []) (Json.obj [("jsonrpc", .str "2.0"), ("id", .str "req-1")])
      rfl (Or.inl rfl) rfl,
   C5_get_fallback.2.2.2.2.2 pjNone "http://srv/mcp" "" "tools/list" "req-1" true
      ⟨.resp 200 (.text []), .resp 200 (.text []),
       fun _ => .resp 405 (.text []), fun _ => .resp 500 (.text [])⟩⟩

end Mcp
